import Mathlib

/-!
Verification of the FitStore inventory valuation / FIFO cost-layer subsystem
(`backend/supplements/models.py`, `signals.py`, `views.py`).

Python `Decimal` values are modelled as exact rationals (`ℚ`); the spec's
"within rounding tolerance" equations are therefore proved exactly.  A
product's cost layers are kept as a `List CostLayer` in `created_at` order
(oldest first), which is exactly the `order_by('created_at')` ordering the
code uses for FIFO; database row updates keep their position in that order.
Django's `transaction.atomic` blocks are modelled as all-or-nothing state
transformers: an operation that raises inside the transaction leaves the
state unchanged.
-/

namespace FitStore

/-- One FIFO cost layer, mirroring `CostLayer` in `supplements/models.py`.
`purchase_item` is the nullable foreign key to the purchase line that
created the layer (`none` for restoration layers). -/
structure CostLayer where
  purchase_item : Option Nat
  unit_cost : ℚ
  unit_cost_gtq : ℚ
  base_unit_cost : ℚ
  allocated_logistics_per_unit : ℚ
  logistics_allocated : Bool
  quantity_remaining : ℚ
  original_quantity : ℚ
deriving DecidableEq, Repr

/-- Inventory transaction types, mirroring `InventoryTransaction.TRANSACTION_TYPES`. -/
inductive TxnType where
  | purchase
  | sale
  | adjustment
deriving DecidableEq, Repr

/-- One inventory-ledger entry, mirroring `InventoryTransaction` in `models.py`
(the product reference is implicit: a `PState` is the state of one product). -/
structure InventoryTransaction where
  transaction_type : TxnType
  quantity_change : ℚ
  quantity_after : ℚ
  reference_id : Option Nat
deriving DecidableEq, Repr

/-- The state of one product: the `Product` row fields touched by the core
logic, its cost layers in `created_at` (FIFO) order, and its ledger entries. -/
structure PState where
  current_stock : ℚ
  average_cost : ℚ
  last_purchase_cost : ℚ
  cost_layers : List CostLayer
  ledger : List InventoryTransaction
deriving DecidableEq, Repr

/-- One purchase line, mirroring `PurchaseItem` in `models.py` (`id` is the
primary key that `CostLayer.purchase_item` refers to). -/
structure PurchaseItem where
  id : Nat
  quantity : ℚ
  unit_cost : ℚ
  discount : ℚ
deriving DecidableEq, Repr

/-- Purchase status, mirroring `Purchase.STATUS_CHOICES`. -/
inductive PStatus where
  | pending
  | received
  | cancelled
deriving DecidableEq, Repr

/-- `Σ quantity_remaining × unit_cost` over a layer list (the USD-valued
aggregate used by `Product.update_average_cost`, `models.py:159`). -/
def layersValue (ls : List CostLayer) : ℚ :=
  (ls.map (fun l => l.quantity_remaining * l.unit_cost)).sum

/-- `Σ quantity_remaining` over a layer list (`models.py:164`). -/
def layersQty (ls : List CostLayer) : ℚ :=
  (ls.map (fun l => l.quantity_remaining)).sum

/-- `Σ quantity_remaining × unit_cost_gtq` over a layer list (the GTQ value
consumed when the layers are exhausted by a FIFO walk). -/
def layersValueGtq (ls : List CostLayer) : ℚ :=
  (ls.map (fun l => l.quantity_remaining * l.unit_cost_gtq)).sum

/-- `Product.update_average_cost` (`models.py:153-173`): recompute the
weighted average USD cost from all cost layers; zero when no quantity
remains. -/
def update_average_cost (s : PState) : PState :=
  if 0 < layersQty s.cost_layers then
    { s with average_cost := layersValue s.cost_layers / layersQty s.cost_layers }
  else
    { s with average_cost := 0 }

/-- The layers the FIFO queries select: `filter(quantity_remaining__gt=0)`
in `created_at` order (`models.py:133`, `signals.py:26-29`, `signals.py:87-90`). -/
def activeLayers (ls : List CostLayer) : List CostLayer :=
  ls.filter (fun l => 0 < l.quantity_remaining)

/-- The FIFO accumulation loop shared by `Product.get_fifo_cost`
(`models.py:135-142`) and `calculate_fifo_cost` (`signals.py:40-51`): walk
the (already filtered) layers oldest first, take
`min(remaining, layer.quantity_remaining)` from each, accumulate
`taken × unit_cost_gtq`, stop when the remaining need is `≤ 0`.  Returns
the accumulated GTQ cost and the unsatisfied remainder. -/
def fifoLoop : List CostLayer → ℚ → ℚ × ℚ
  | [], rem => (0, rem)
  | l :: ls, rem =>
    if rem ≤ 0 then (0, rem)
    else
      let take := min rem l.quantity_remaining
      let rest := fifoLoop ls (rem - take)
      (take * l.unit_cost_gtq + rest.1, rest.2)

/-- `Product.get_fifo_cost` (`models.py:122-151`): total GTQ cost of selling
`quantity`, with any shortfall past the layers costed at
`average_cost × rate` (`models.py:144-148`), plus the per-unit average. -/
def get_fifo_cost (s : PState) (rate : ℚ) (quantity : ℚ) : ℚ × ℚ :=
  let r := fifoLoop (activeLayers s.cost_layers) quantity
  let total := if 0 < r.2 then r.1 + r.2 * s.average_cost * rate else r.1
  (total, if 0 < quantity then total / quantity else 0)

/-- `calculate_fifo_cost` (`signals.py:8-59`), the `pre_save` hook on a new
sale line: keep a pre-set positive `unit_cost` untouched (`signals.py:19`);
with no active layers fall back to `average_cost_gtq` (`signals.py:31-34`);
otherwise run the FIFO loop with the average-cost fallback for any
shortfall and divide by the quantity (`signals.py:36-59`). -/
def calculate_fifo_cost (s : PState) (rate : ℚ) (preset_cost : ℚ) (quantity : ℚ) : ℚ :=
  if 0 < preset_cost then preset_cost
  else if activeLayers s.cost_layers = [] then s.average_cost * rate
  else
    let r := fifoLoop (activeLayers s.cost_layers) quantity
    let total := if 0 < r.2 then r.1 + r.2 * s.average_cost * rate else r.1
    total / quantity

/-- The layer-consumption loop of `update_inventory_and_cost_layers`
(`signals.py:94-106`): decrement `quantity_remaining` of the active layers
oldest first by `min(remaining, layer.quantity_remaining)`; rows with no
remaining quantity are not selected and stay untouched. -/
def consumeLayers : List CostLayer → ℚ → List CostLayer
  | [], _ => []
  | l :: ls, rem =>
    if rem ≤ 0 then l :: ls
    else if 0 < l.quantity_remaining then
      let take := min rem l.quantity_remaining
      { l with quantity_remaining := l.quantity_remaining - take } :: consumeLayers ls (rem - take)
    else
      l :: consumeLayers ls rem

/-- The payload of the insufficient-stock rejection: the available and
requested quantities quoted in the error message (`views.py:246-250`,
`signals.py:83-84`). -/
structure SaleRejection where
  available : ℚ
  requested : ℚ
deriving DecidableEq, Repr

/-- Creation of a new sale line (`SaleItemViewSet.create`, `views.py:236-252`,
plus the `pre_save` and `post_save` hooks, `signals.py:8-120`): under the
product lock, reject when the requested quantity exceeds current stock
(carrying available/requested); otherwise compute the FIFO unit cost,
consume the layers, decrement stock and append the sale ledger entry, all
in one atomic unit.  Returns the new state and the line's `unit_cost`. -/
def sale_item_create (s : PState) (rate : ℚ) (saleId : Nat)
    (quantity preset_cost : ℚ) : Except SaleRejection (PState × ℚ) :=
  if s.current_stock < quantity then
    .error ⟨s.current_stock, quantity⟩
  else
    let uc := calculate_fifo_cost s rate preset_cost quantity
    let stock' := s.current_stock - quantity
    .ok ({ s with
            cost_layers := consumeLayers s.cost_layers quantity,
            current_stock := stock',
            ledger := s.ledger ++
              [⟨TxnType.sale, -quantity, stock', some saleId⟩] }, uc)

/-- Deletion of a sale line (`restore_inventory_on_delete`,
`signals.py:123-195`): restore stock, delete the exactly-matching sale
ledger entry, re-create a fully available restoration layer at the line's
cost (falling back to `average_cost_gtq` when the line's cost is not
positive; no layer at all when even that is not positive), recompute the
average cost, and append an adjustment entry. -/
def sale_item_delete (s : PState) (rate : ℚ) (saleId : Option Nat)
    (quantity unit_cost : ℚ) : PState :=
  let s1 := { s with current_stock := s.current_stock + quantity }
  let s2 :=
    match saleId with
    | some sid =>
      { s1 with ledger := s1.ledger.filter (fun t =>
          ¬(t.transaction_type = TxnType.sale ∧ t.reference_id = some sid ∧
            t.quantity_change = -quantity)) }
    | none => s1
  let ucg := if 0 < unit_cost then unit_cost else s2.average_cost * rate
  let s3 :=
    if 0 < ucg then
      { s2 with cost_layers := s2.cost_layers ++
          [{ purchase_item := none
             unit_cost := ucg / rate
             unit_cost_gtq := ucg
             base_unit_cost := ucg / rate
             allocated_logistics_per_unit := 0
             logistics_allocated := true
             quantity_remaining := quantity
             original_quantity := quantity }] }
    else s2
  let s4 := update_average_cost s3
  { s4 with ledger := s4.ledger ++
      [⟨TxnType.adjustment, quantity, s4.current_stock, saleId⟩] }

/-- The cost layer created when a purchase line is received
(`PurchaseViewSet.receive`, `views.py:85-99`): USD cost from the line,
GTQ cost snapshotted at the current rate, logistics not yet allocated. -/
def receiveLayer (rate : ℚ) (item : PurchaseItem) : CostLayer :=
  { purchase_item := some item.id
    unit_cost := item.unit_cost
    unit_cost_gtq := item.unit_cost * rate
    base_unit_cost := item.unit_cost
    allocated_logistics_per_unit := 0
    logistics_allocated := false
    quantity_remaining := item.quantity
    original_quantity := item.quantity }

/-- The per-line body of `PurchaseViewSet.receive` (`views.py:76-112`):
add the quantity to stock, record the last purchase cost, create the cost
layer, recompute the average cost, append the purchase ledger entry. -/
def receive_item (rate : ℚ) (purchaseId : Nat) (s : PState) (item : PurchaseItem) : PState :=
  let s1 := { s with
    current_stock := s.current_stock + item.quantity,
    last_purchase_cost := item.unit_cost }
  let s2 := update_average_cost
    { s1 with cost_layers := s1.cost_layers ++ [receiveLayer rate item] }
  { s2 with ledger := s2.ledger ++
      [⟨TxnType.purchase, item.quantity, s2.current_stock, some purchaseId⟩] }

/-- `PurchaseViewSet.receive` restricted to the given product's lines
(`views.py:70-112`): process every line in order inside one transaction. -/
def purchase_receive (rate : ℚ) (purchaseId : Nat) (items : List PurchaseItem)
    (s : PState) : PState :=
  items.foldl (receive_item rate purchaseId) s

/-- The per-line body of `reverse_purchase_on_delete` (`signals.py:222-239`):
subtract the line quantity from stock clamped at zero, delete the cost
layers linked to that purchase line regardless of remaining quantity, and
recompute the average cost. -/
def delete_item_reversal (s : PState) (item : PurchaseItem) : PState :=
  let stock' :=
    if s.current_stock - item.quantity < 0 then 0 else s.current_stock - item.quantity
  update_average_cost
    { s with
      current_stock := stock',
      cost_layers := s.cost_layers.filter (fun l => ¬ l.purchase_item = some item.id) }

/-- `reverse_purchase_on_delete` restricted to one product, after the
`status = received` guard (`signals.py:198-261`): reverse every line, then
bulk-delete the purchase-type ledger entries referencing this purchase,
then append one adjustment entry per line using the post-deletion stock. -/
def purchase_delete_core (purchaseId : Nat) (items : List PurchaseItem)
    (s : PState) : PState :=
  let s1 := items.foldl delete_item_reversal s
  let s2 := { s1 with ledger := s1.ledger.filter (fun t =>
      ¬(t.transaction_type = TxnType.purchase ∧ t.reference_id = some purchaseId)) }
  items.foldl
    (fun st it =>
      { st with ledger := st.ledger ++
          [⟨TxnType.adjustment, -it.quantity, st.current_stock, some purchaseId⟩] })
    s2

/-- A purchase header, mirroring `Purchase` (`models.py:218-401`): status,
the real logistics costs (nullable), and its lines. -/
structure Purchase where
  id : Nat
  status : PStatus
  real_shipping : Option ℚ
  real_taxes : Option ℚ
  items : List PurchaseItem
deriving DecidableEq, Repr

/-- `PurchaseViewSet.receive` including its double-receive guard
(`views.py:62-73`): an already-received purchase is rejected unchanged;
otherwise the status becomes `received` and every line is processed. -/
def purchase_receive_op (rate : ℚ) (p : Purchase) (s : PState) : Purchase × PState :=
  if p.status = PStatus.received then (p, s)
  else ({ p with status := PStatus.received }, purchase_receive rate p.id p.items s)

/-- `reverse_purchase_on_delete` including its status guard
(`signals.py:207-209`): only a received purchase is reversed. -/
def purchase_delete_op (p : Purchase) (s : PState) : PState :=
  if p.status = PStatus.received then purchase_delete_core p.id p.items s else s

/-- `PurchaseItem.total_price` (`models.py:425-427`):
`quantity × unit_cost − discount`. -/
def total_price (it : PurchaseItem) : ℚ :=
  it.quantity * it.unit_cost - it.discount

/-- `Purchase.product_cost` (`models.py:276-279`): the sum of the lines'
`total_price` values (discounts included). -/
def product_cost (items : List PurchaseItem) : ℚ :=
  (items.map total_price).sum

/-- The per-layer body of `Purchase.allocate_logistics_costs`
(`models.py:345-361`): skip an already-allocated layer; otherwise allocate
`((quantity × unit_cost) / totalProductCost) × totalLogistics` to the line,
divide by the quantity, and store the per-unit amount, the new USD
`unit_cost` and the `logistics_allocated` flag.  (`unit_cost_gtq` is not
touched.) -/
def allocate_layer (totalProductCost totalLogistics : ℚ) (it : PurchaseItem)
    (cl : CostLayer) : CostLayer :=
  if cl.logistics_allocated then cl
  else
    let perUnit := ((it.quantity * it.unit_cost) / totalProductCost * totalLogistics) / it.quantity
    { cl with
      allocated_logistics_per_unit := perUnit,
      unit_cost := cl.base_unit_cost + perUnit,
      logistics_allocated := true }

/-- `Purchase.allocate_logistics_costs` (`models.py:317-373`) at layer
granularity: each line is paired with its cost layer when one exists
(`none` when the purchase was never received — such lines are skipped).
No-op when either real cost is missing, when the total logistics is zero,
or when the total product cost is zero. -/
def allocate_logistics_costs (real_shipping real_taxes : Option ℚ)
    (pairs : List (PurchaseItem × Option CostLayer)) :
    List (PurchaseItem × Option CostLayer) :=
  match real_shipping, real_taxes with
  | some sh, some tx =>
    if sh + tx = 0 then pairs
    else if product_cost (pairs.map Prod.fst) = 0 then pairs
    else pairs.map (fun pr =>
      (pr.1, pr.2.map (allocate_layer (product_cost (pairs.map Prod.fst)) (sh + tx) pr.1)))
  | _, _ => pairs

/-- The single-product projection of one iteration of the allocation loop
(`models.py:340-367`): when this product owns the layer created from the
given line and it is not yet allocated, update that layer, set the
product's `last_purchase_cost` to the new unit cost, and recompute the
average cost; otherwise leave the state unchanged. -/
def allocate_item_state (totalProductCost totalLogistics : ℚ)
    (it : PurchaseItem) (s : PState) : PState :=
  match s.cost_layers.find? (fun l => l.purchase_item = some it.id) with
  | none => s
  | some cl =>
    if cl.logistics_allocated then s
    else
      let newLayer := allocate_layer totalProductCost totalLogistics it cl
      update_average_cost
        { s with
          cost_layers := s.cost_layers.map
            (fun l => if l.purchase_item = some it.id then newLayer else l),
          last_purchase_cost := newLayer.unit_cost }

/-- The operations of the claims' state machine: purchase receipt, sale-line
creation, sale-line deletion, purchase deletion (each per product, with the
status flags the guards read). -/
inductive Op where
  | purchaseReceive (purchaseId : Nat) (rate : ℚ) (items : List PurchaseItem)
      (alreadyReceived : Bool)
  | saleCreate (saleId : Nat) (rate : ℚ) (quantity preset_cost : ℚ)
  | saleDelete (saleId : Option Nat) (rate : ℚ) (quantity unit_cost : ℚ)
  | purchaseDelete (purchaseId : Nat) (items : List PurchaseItem) (received : Bool)
deriving Repr

/-- Field-validator facts the database enforces on an operation's inputs
(`MinValueValidator` on `PurchaseItem.quantity` and `SaleItem.quantity`,
`models.py:407-410` and `models.py:594-597`). -/
def Op.valid : Op → Prop
  | .purchaseReceive _ _ items _ => ∀ it ∈ items, 0 ≤ it.quantity
  | .saleCreate _ _ _ _ => True
  | .saleDelete _ _ quantity _ => 0 ≤ quantity
  | .purchaseDelete _ _ _ => True

/-- Apply one operation.  A rejected sale-line creation raises inside
`transaction.atomic` (`views.py:240-252`, `signals.py:78-84`), so the state
is unchanged. -/
def applyOp (s : PState) : Op → PState
  | .purchaseReceive purchaseId rate items alreadyReceived =>
    if alreadyReceived then s else purchase_receive rate purchaseId items s
  | .saleCreate saleId rate quantity preset_cost =>
    match sale_item_create s rate saleId quantity preset_cost with
    | .ok r => r.1
    | .error _ => s
  | .saleDelete saleId rate quantity unit_cost =>
    sale_item_delete s rate saleId quantity unit_cost
  | .purchaseDelete purchaseId items received =>
    if received then purchase_delete_core purchaseId items s else s

/-- Apply a sequence of operations left to right. -/
def applyOps (s : PState) (ops : List Op) : PState :=
  ops.foldl applyOp s

/-- The spec's average-cost invariant (§4.2, §8), stated multiplicatively:
`average_cost × Σ quantity_remaining = Σ (quantity_remaining × unit_cost)`
over the product's layers, in USD. -/
def avgInv (s : PState) : Prop :=
  s.average_cost * layersQty s.cost_layers = layersValue s.cost_layers

/-- All layers of a state have non-negative remaining quantity
(`MinValueValidator(0)` on `quantity_remaining`, `models.py:481-486`). -/
def layersNonneg (s : PState) : Prop :=
  ∀ l ∈ s.cost_layers, 0 ≤ l.quantity_remaining

/-- Total quantity over a list of purchase lines. -/
def totalQty (items : List PurchaseItem) : ℚ :=
  (items.map (fun it => it.quantity)).sum

/-! ### Helper lemmas -/

theorem layersQty_nonneg {ls : List CostLayer}
    (h : ∀ l ∈ ls, 0 ≤ l.quantity_remaining) : 0 ≤ layersQty ls := by
  refine List.sum_nonneg ?_
  intro x hx
  rcases List.mem_map.mp hx with ⟨l, hl, rfl⟩
  exact h l hl

theorem totalQty_nonneg {items : List PurchaseItem}
    (h : ∀ it ∈ items, 0 ≤ it.quantity) : 0 ≤ totalQty items := by
  refine List.sum_nonneg ?_
  intro x hx
  rcases List.mem_map.mp hx with ⟨it, hit, rfl⟩
  exact h it hit

theorem layersValue_eq_zero {ls : List CostLayer}
    (h : ∀ l ∈ ls, 0 ≤ l.quantity_remaining) (h0 : layersQty ls ≤ 0) :
    layersValue ls = 0 := by
  induction ls with
  | nil => simp [layersValue]
  | cons l ls ih =>
    have hl : 0 ≤ l.quantity_remaining := h l (List.mem_cons_self _ _)
    have hrest : 0 ≤ layersQty ls :=
      layersQty_nonneg (fun x hx => h x (List.mem_cons_of_mem _ hx))
    have hq : layersQty (l :: ls) = l.quantity_remaining + layersQty ls := by
      simp [layersQty]
    have hl0 : l.quantity_remaining = 0 := by
      rw [hq] at h0; linarith
    have hv : layersValue (l :: ls) =
        l.quantity_remaining * l.unit_cost + layersValue ls := by
      simp [layersValue]
    rw [hv, hl0, ih (fun x hx => h x (List.mem_cons_of_mem _ hx)) (by rw [hq] at h0; linarith)]
    ring

@[simp] theorem update_average_cost_stock (s : PState) :
    (update_average_cost s).current_stock = s.current_stock := by
  unfold update_average_cost; split <;> rfl

@[simp] theorem update_average_cost_layers (s : PState) :
    (update_average_cost s).cost_layers = s.cost_layers := by
  unfold update_average_cost; split <;> rfl

@[simp] theorem update_average_cost_ledger (s : PState) :
    (update_average_cost s).ledger = s.ledger := by
  unfold update_average_cost; split <;> rfl

@[simp] theorem update_average_cost_lpc (s : PState) :
    (update_average_cost s).last_purchase_cost = s.last_purchase_cost := by
  unfold update_average_cost; split <;> rfl

theorem avgInv_update_average_cost {s : PState}
    (h : ∀ l ∈ s.cost_layers, 0 ≤ l.quantity_remaining) :
    avgInv (update_average_cost s) := by
  unfold avgInv update_average_cost
  split
  · rename_i hpos
    simp only
    field_simp
  · rename_i hneg
    push_neg at hneg
    simp only
    rw [layersValue_eq_zero h hneg]
    ring

@[simp] theorem receive_item_stock (rate : ℚ) (purchaseId : Nat) (s : PState)
    (item : PurchaseItem) :
    (receive_item rate purchaseId s item).current_stock =
      s.current_stock + item.quantity := by
  simp [receive_item]

@[simp] theorem receive_item_layers (rate : ℚ) (purchaseId : Nat) (s : PState)
    (item : PurchaseItem) :
    (receive_item rate purchaseId s item).cost_layers =
      s.cost_layers ++ [receiveLayer rate item] := by
  simp [receive_item]

theorem purchase_receive_stock (rate : ℚ) (purchaseId : Nat)
    (items : List PurchaseItem) (s : PState) :
    (purchase_receive rate purchaseId items s).current_stock =
      s.current_stock + totalQty items := by
  induction items generalizing s with
  | nil => simp [purchase_receive, totalQty]
  | cons it items ih =>
    simp only [purchase_receive, List.foldl_cons] at *
    rw [ih]
    simp [totalQty]
    ring

theorem purchase_receive_layers (rate : ℚ) (purchaseId : Nat)
    (items : List PurchaseItem) (s : PState) :
    (purchase_receive rate purchaseId items s).cost_layers =
      s.cost_layers ++ items.map (receiveLayer rate) := by
  induction items generalizing s with
  | nil => simp [purchase_receive]
  | cons it items ih =>
    simp only [purchase_receive, List.foldl_cons] at *
    rw [ih]
    simp

theorem delete_item_reversal_stock_nonneg (s : PState) (item : PurchaseItem) :
    0 ≤ (delete_item_reversal s item).current_stock := by
  simp only [delete_item_reversal, update_average_cost_stock]
  split
  · exact le_refl 0
  · rename_i hge
    push_neg at hge
    exact hge

theorem delete_fold_stock_nonneg (items : List PurchaseItem) (s : PState)
    (h : 0 ≤ s.current_stock) :
    0 ≤ (items.foldl delete_item_reversal s).current_stock := by
  induction items generalizing s with
  | nil => simpa
  | cons it items ih =>
    simp only [List.foldl_cons]
    exact ih _ (delete_item_reversal_stock_nonneg s it)

theorem delete_fold_stock_exact (items : List PurchaseItem) (s : PState)
    (hq : ∀ it ∈ items, 0 ≤ it.quantity) (hle : totalQty items ≤ s.current_stock) :
    (items.foldl delete_item_reversal s).current_stock =
      s.current_stock - totalQty items := by
  induction items generalizing s with
  | nil => simp [totalQty]
  | cons it items ih =>
    have h1 : 0 ≤ it.quantity := hq it (List.mem_cons_self _ _)
    have h2 : 0 ≤ totalQty items :=
      totalQty_nonneg (fun x hx => hq x (List.mem_cons_of_mem _ hx))
    have htq : totalQty (it :: items) = it.quantity + totalQty items := by
      simp [totalQty]
    rw [htq] at hle
    have hnoclamp : ¬ s.current_stock - it.quantity < 0 := by linarith
    have hstep : (delete_item_reversal s it).current_stock =
        s.current_stock - it.quantity := by
      simp only [delete_item_reversal, update_average_cost_stock]
      rw [if_neg hnoclamp]
    simp only [List.foldl_cons]
    rw [ih _ (fun x hx => hq x (List.mem_cons_of_mem _ hx)) (by rw [hstep]; linarith),
      hstep, htq]
    ring

theorem delete_fold_layers_clean (items : List PurchaseItem) (s : PState) :
    ∀ l ∈ (items.foldl delete_item_reversal s).cost_layers,
      l ∈ s.cost_layers ∧ ∀ it ∈ items, ¬ l.purchase_item = some it.id := by
  induction items generalizing s with
  | nil =>
    intro l hl
    exact ⟨hl, by simp⟩
  | cons it items ih =>
    intro l hl
    simp only [List.foldl_cons] at hl
    obtain ⟨hmem, hrest⟩ := ih (delete_item_reversal s it) l hl
    simp only [delete_item_reversal, update_average_cost_layers] at hmem
    have := List.mem_filter.mp hmem
    refine ⟨this.1, ?_⟩
    intro it' hit'
    rcases List.mem_cons.mp hit' with h | h
    · subst h
      simpa using this.2
    · exact hrest it' h

theorem consumeLayers_nonneg (ls : List CostLayer) (q : ℚ)
    (h : ∀ l ∈ ls, 0 ≤ l.quantity_remaining) :
    ∀ l ∈ consumeLayers ls q, 0 ≤ l.quantity_remaining := by
  induction ls generalizing q with
  | nil => simp [consumeLayers]
  | cons l ls ih =>
    intro x hx
    have hl : 0 ≤ l.quantity_remaining := h l (List.mem_cons_self _ _)
    have hrest : ∀ y ∈ ls, 0 ≤ y.quantity_remaining :=
      fun y hy => h y (List.mem_cons_of_mem _ hy)
    simp only [consumeLayers] at hx
    split at hx
    · exact h x hx
    · rename_i hq
      push_neg at hq
      split at hx
      · rename_i hpos
        rcases List.mem_cons.mp hx with rfl | hmem
        · simp only
          have : min q l.quantity_remaining ≤ l.quantity_remaining := min_le_right _ _
          linarith
        · exact ih _ hrest x hmem
      · rcases List.mem_cons.mp hx with rfl | hmem
        · exact hl
        · exact ih _ hrest x hmem

theorem sale_item_create_reject {s : PState} {rate : ℚ} {saleId : Nat}
    {quantity preset_cost : ℚ} (h : s.current_stock < quantity) :
    sale_item_create s rate saleId quantity preset_cost =
      .error ⟨s.current_stock, quantity⟩ := by
  simp [sale_item_create, h]

theorem sale_item_create_accept {s : PState} {rate : ℚ} {saleId : Nat}
    {quantity preset_cost : ℚ} (h : ¬ s.current_stock < quantity) :
    sale_item_create s rate saleId quantity preset_cost =
      .ok ({ s with
              cost_layers := consumeLayers s.cost_layers quantity,
              current_stock := s.current_stock - quantity,
              ledger := s.ledger ++
                [⟨TxnType.sale, -quantity, s.current_stock - quantity, some saleId⟩] },
            calculate_fifo_cost s rate preset_cost quantity) := by
  simp [sale_item_create, h]

theorem sale_item_delete_stock (s : PState) (rate : ℚ) (saleId : Option Nat)
    (quantity unit_cost : ℚ) :
    (sale_item_delete s rate saleId quantity unit_cost).current_stock =
      s.current_stock + quantity := by
  cases saleId <;>
    · simp only [sale_item_delete, update_average_cost_stock]
      split <;> first
        | rfl
        | (split <;> rfl)

theorem applyOp_stock_nonneg (s : PState) (op : Op) (hv : op.valid)
    (h : 0 ≤ s.current_stock) : 0 ≤ (applyOp s op).current_stock := by
  cases op with
  | purchaseReceive purchaseId rate items alreadyReceived =>
    simp only [applyOp]
    split
    · exact h
    · rw [purchase_receive_stock]
      have := totalQty_nonneg hv
      linarith
  | saleCreate saleId rate quantity preset_cost =>
    simp only [applyOp]
    by_cases hlt : s.current_stock < quantity
    · rw [sale_item_create_reject hlt]
      exact h
    · rw [sale_item_create_accept hlt]
      simp only
      push_neg at hlt
      linarith
  | saleDelete saleId rate quantity unit_cost =>
    simp only [applyOp]
    rw [sale_item_delete_stock]
    have : (0:ℚ) ≤ quantity := hv
    linarith
  | purchaseDelete purchaseId items received =>
    simp only [applyOp]
    split
    · simp only [purchase_delete_core]
      have h1 := delete_fold_stock_nonneg items s h
      set s1 := items.foldl delete_item_reversal s with hs1
      have hledstock : ∀ (st : PState) (its : List PurchaseItem),
          ((its.foldl
            (fun st it =>
              { st with ledger := st.ledger ++
                  [⟨TxnType.adjustment, -it.quantity, st.current_stock, some purchaseId⟩] })
            st)).current_stock = st.current_stock := by
        intro st its
        induction its generalizing st with
        | nil => rfl
        | cons a its ih => simp only [List.foldl_cons]; rw [ih]
      rw [hledstock]
      exact h1
    · exact h

/-- Claim C2 (confirmed): starting from non-negative stock, any sequence of
purchase-receive, sale-line creation, sale-line deletion and
purchase-deletion operations (with database-validated quantities) leaves
`current_stock ≥ 0`. -/
theorem stock_nonneg_after_any_op_sequence (s : PState) (ops : List Op)
    (hv : ∀ op ∈ ops, op.valid) (h : 0 ≤ s.current_stock) :
    0 ≤ (applyOps s ops).current_stock := by
  induction ops generalizing s with
  | nil => simpa [applyOps]
  | cons op ops ih =>
    simp only [applyOps, List.foldl_cons]
    exact ih _ (fun o ho => hv o (List.mem_cons_of_mem _ ho))
      (applyOp_stock_nonneg s op (hv op (List.mem_cons_self _ _)) h)

/-- Concrete witness for C2: receive 10 units at $4, sell 7, delete the
sale line, delete the purchase — the final stock is non-negative. -/
theorem stock_nonneg_after_any_op_sequence_witness :
    0 ≤ (applyOps ⟨0, 0, 0, [], []⟩
      [Op.purchaseReceive 1 (31/4) [⟨1, 10, 4, 0⟩] false,
       Op.saleCreate 1 (31/4) 7 0,
       Op.saleDelete (some 1) (31/4) 7 31,
       Op.purchaseDelete 1 [⟨1, 10, 4, 0⟩] true]).current_stock := by
  apply stock_nonneg_after_any_op_sequence
  · intro op hop
    simp only [List.mem_cons] at hop
    rcases hop with rfl | rfl | rfl | rfl | h
    · intro it hit
      simp only [List.mem_cons] at hit
      rcases hit with rfl | h
      · norm_num
      · simp at h
    · trivial
    · norm_num [Op.valid]
    · trivial
    · simp at h
  · norm_num

theorem fifoLoop_nonpos (ls : List CostLayer) {rem : ℚ} (h : rem ≤ 0) :
    fifoLoop ls rem = (0, rem) := by
  cases ls with
  | nil => rfl
  | cons l ls => simp [fifoLoop, h]

theorem fifoLoop_exhaust (ls : List CostLayer) (rem : ℚ)
    (hpos : ∀ l ∈ ls, 0 < l.quantity_remaining) (hle : layersQty ls ≤ rem) :
    fifoLoop ls rem = (layersValueGtq ls, rem - layersQty ls) := by
  induction ls generalizing rem with
  | nil => simp [fifoLoop, layersValueGtq, layersQty]
  | cons l ls ih =>
    have hl : 0 < l.quantity_remaining := hpos l (List.mem_cons_self _ _)
    have hrest : ∀ x ∈ ls, 0 < x.quantity_remaining :=
      fun x hx => hpos x (List.mem_cons_of_mem _ hx)
    have hrestq : 0 ≤ layersQty ls := layersQty_nonneg (fun x hx => (hrest x hx).le)
    have hq : layersQty (l :: ls) = l.quantity_remaining + layersQty ls := by
      simp [layersQty]
    rw [hq] at hle
    have hr : ¬ rem ≤ 0 := by linarith
    have hmin : min rem l.quantity_remaining = l.quantity_remaining := by
      apply min_eq_right; linarith
    simp only [fifoLoop, if_neg hr, hmin]
    rw [ih (rem - l.quantity_remaining) hrest (by linarith)]
    simp only [layersValueGtq, layersQty, List.map_cons, List.sum_cons, Prod.mk.injEq]
    constructor <;> ring_nf

theorem fifo_conservation (ls : List CostLayer) (rem : ℚ) :
    (fifoLoop (activeLayers ls) rem).1 =
      layersValueGtq ls - layersValueGtq (consumeLayers ls rem) := by
  induction ls generalizing rem with
  | nil => simp [fifoLoop, activeLayers, consumeLayers]
  | cons l ls ih =>
    by_cases hrem : rem ≤ 0
    · rw [fifoLoop_nonpos _ hrem]
      simp [consumeLayers, hrem]
    · by_cases hact : 0 < l.quantity_remaining
      · have hfilter : activeLayers (l :: ls) = l :: activeLayers ls := by
          simp [activeLayers, List.filter_cons, hact]
        rw [hfilter]
        simp only [fifoLoop, if_neg hrem, consumeLayers, if_neg hrem, if_pos hact]
        rw [ih]
        simp only [layersValueGtq, List.map_cons, List.sum_cons]
        ring
      · have hfilter : activeLayers (l :: ls) = activeLayers ls := by
          simp [activeLayers, List.filter_cons, hact]
        rw [hfilter]
        simp only [consumeLayers, if_neg hrem, if_neg hact]
        rw [ih]
        simp only [layersValueGtq, List.map_cons, List.sum_cons]
        ring

/-- Claim C1 (confirmed): the FIFO cost computation walks the product's
positive-remainder layers oldest first, taking
`min(remaining, quantity_remaining)` from each and accumulating
`taken × unit_cost_gtq` — so the accumulated cost is exactly the GTQ layer
value removed by the matching consumption — and when the layers are
exhausted the shortfall is costed at `average_cost × rate`; the sale-line
hook agrees with `Product.get_fifo_cost`; and on layers
L1(qty=5, gtq cost=10), L2(qty=5, gtq cost=12) consuming 7 costs 74 and
leaves remainders 0 and 3. -/
theorem fifo_cost_spec :
    (∀ (ls : List CostLayer) (rem : ℚ),
        (fifoLoop (activeLayers ls) rem).1 =
          layersValueGtq ls - layersValueGtq (consumeLayers ls rem)) ∧
    (∀ (s : PState) (rate q : ℚ),
        layersQty (activeLayers s.cost_layers) ≤ q →
        (get_fifo_cost s rate q).1 =
          layersValueGtq (activeLayers s.cost_layers) +
            (q - layersQty (activeLayers s.cost_layers)) * s.average_cost * rate) ∧
    (∀ (s : PState) (rate q : ℚ), 0 < q →
        calculate_fifo_cost s rate 0 q = (get_fifo_cost s rate q).2) ∧
    ((get_fifo_cost
        ⟨10, 0, 0, [⟨some 1, 10, 10, 10, 0, false, 5, 5⟩,
                    ⟨some 2, 12, 12, 12, 0, false, 5, 5⟩], []⟩ (31/4) 7).1 = 74 ∧
      consumeLayers [⟨some 1, 10, 10, 10, 0, false, 5, 5⟩,
                     ⟨some 2, 12, 12, 12, 0, false, 5, 5⟩] 7 =
        [⟨some 1, 10, 10, 10, 0, false, 0, 5⟩,
         ⟨some 2, 12, 12, 12, 0, false, 3, 5⟩]) := by
  refine ⟨fifo_conservation, ?_, ?_, ?_, ?_⟩
  · intro s rate q hle
    have hpos : ∀ l ∈ activeLayers s.cost_layers, 0 < l.quantity_remaining := by
      intro l hl
      have := List.mem_filter.mp hl
      simpa using this.2
    unfold get_fifo_cost
    rw [fifoLoop_exhaust _ _ hpos hle]
    rcases lt_or_eq_of_le hle with h | h
    · simp only
      rw [if_pos (by linarith : (0:ℚ) < q - layersQty (activeLayers s.cost_layers))]
    · simp only
      rw [← h]
      simp
  · intro s rate q hq
    unfold calculate_fifo_cost get_fifo_cost
    rw [if_neg (lt_irrefl 0)]
    by_cases hemp : activeLayers s.cost_layers = []
    · rw [if_pos hemp, hemp]
      simp only [fifoLoop]
      rw [if_pos hq, if_pos hq]
      field_simp
      ring_nf
    · rw [if_neg hemp]
      simp only
      rw [if_pos hq]
  · norm_num [get_fifo_cost, activeLayers, fifoLoop, layersQty, layersValueGtq]
  · norm_num [consumeLayers]

/-- Concrete witness for C1's quantified conjuncts: with no layers,
average cost 4 USD and rate 5, selling 3 units is costed entirely at the
average-cost fallback, 60 GTQ, and the sale-line hook agrees. -/
theorem fifo_cost_spec_witness :
    (get_fifo_cost ⟨0, 4, 0, [], []⟩ 5 3).1 = 60 ∧
    calculate_fifo_cost ⟨0, 4, 0, [], []⟩ 5 0 3 =
      (get_fifo_cost ⟨0, 4, 0, [], []⟩ 5 3).2 := by
  constructor
  · have h := fifo_cost_spec.2.1 ⟨0, 4, 0, [], []⟩ 5 3
      (by norm_num [activeLayers, layersQty])
    rw [h]
    norm_num [activeLayers, layersQty, layersValueGtq]
  · exact fifo_cost_spec.2.2.1 ⟨0, 4, 0, [], []⟩ 5 3 (by norm_num)

theorem avgInv_ledger_update (s : PState) (x : List InventoryTransaction) :
    avgInv { s with ledger := x } ↔ avgInv s := Iff.rfl

theorem receive_item_nonneg (rate : ℚ) (purchaseId : Nat) (s : PState)
    (it : PurchaseItem) (hs : layersNonneg s) (hq : 0 ≤ it.quantity) :
    layersNonneg (receive_item rate purchaseId s it) := by
  intro l hl
  simp only [receive_item, update_average_cost_layers, List.mem_append,
    List.mem_singleton] at hl
  rcases hl with h | rfl
  · exact hs l h
  · exact hq

theorem receive_item_avgInv (rate : ℚ) (purchaseId : Nat) (s : PState)
    (it : PurchaseItem) (hs : layersNonneg s) (hq : 0 ≤ it.quantity) :
    avgInv (receive_item rate purchaseId s it) := by
  unfold receive_item
  rw [avgInv_ledger_update]
  apply avgInv_update_average_cost
  intro l hl
  simp only [List.mem_append, List.mem_singleton] at hl
  rcases hl with h | rfl
  · exact hs l h
  · exact hq

theorem purchase_receive_avgInv (rate : ℚ) (purchaseId : Nat)
    (items : List PurchaseItem) (s : PState) (hs : layersNonneg s)
    (hq : ∀ it ∈ items, 0 ≤ it.quantity) (hne : items ≠ []) :
    avgInv (purchase_receive rate purchaseId items s) := by
  induction items generalizing s with
  | nil => exact absurd rfl hne
  | cons it rest ih =>
    have h1 : 0 ≤ it.quantity := hq it (List.mem_cons_self _ _)
    cases rest with
    | nil =>
      simp only [purchase_receive, List.foldl_cons, List.foldl_nil]
      exact receive_item_avgInv rate purchaseId s it hs h1
    | cons b r2 =>
      simp only [purchase_receive, List.foldl_cons] at *
      exact ih (receive_item rate purchaseId s it)
        (receive_item_nonneg rate purchaseId s it hs h1)
        (fun x hx => hq x (List.mem_cons_of_mem _ hx)) (by simp)

theorem delete_item_reversal_nonneg (s : PState) (it : PurchaseItem)
    (hs : layersNonneg s) : layersNonneg (delete_item_reversal s it) := by
  intro l hl
  simp only [delete_item_reversal, update_average_cost_layers] at hl
  exact hs l (List.mem_filter.mp hl).1

theorem delete_item_reversal_avgInv (s : PState) (it : PurchaseItem)
    (hs : layersNonneg s) : avgInv (delete_item_reversal s it) := by
  unfold delete_item_reversal
  apply avgInv_update_average_cost
  intro l hl
  exact hs l (List.mem_filter.mp hl).1

theorem delete_fold_avgInv (items : List PurchaseItem) (s : PState)
    (hs : layersNonneg s) (hne : items ≠ []) :
    avgInv (items.foldl delete_item_reversal s) := by
  induction items generalizing s with
  | nil => exact absurd rfl hne
  | cons it rest ih =>
    cases rest with
    | nil =>
      simp only [List.foldl_cons, List.foldl_nil]
      exact delete_item_reversal_avgInv s it hs
    | cons b r2 =>
      simp only [List.foldl_cons] at *
      exact ih (delete_item_reversal s it) (delete_item_reversal_nonneg s it hs) (by simp)

theorem purchase_delete_core_avgInv (purchaseId : Nat)
    (items : List PurchaseItem) (s : PState) (hs : layersNonneg s)
    (hne : items ≠ []) : avgInv (purchase_delete_core purchaseId items s) := by
  have hfold : avgInv (items.foldl delete_item_reversal s) :=
    delete_fold_avgInv items s hs hne
  unfold purchase_delete_core
  set s1 := items.foldl delete_item_reversal s with hs1
  have haux : ∀ (st : PState) (its : List PurchaseItem), avgInv st →
      avgInv (its.foldl
        (fun st it =>
          { st with ledger := st.ledger ++
              [⟨TxnType.adjustment, -it.quantity, st.current_stock, some purchaseId⟩] })
        st) := by
    intro st its
    induction its generalizing st with
    | nil => exact id
    | cons a its ih =>
      intro h
      simp only [List.foldl_cons]
      exact ih _ ((avgInv_ledger_update st _).mpr h)
  exact haux _ _ ((avgInv_ledger_update s1 _).mpr hfold)

theorem sale_item_delete_avgInv (s : PState) (rate : ℚ) (saleId : Option Nat)
    (quantity unit_cost : ℚ) (hs : layersNonneg s) (hq : 0 ≤ quantity) :
    avgInv (sale_item_delete s rate saleId quantity unit_cost) := by
  unfold sale_item_delete
  rw [avgInv_ledger_update]
  apply avgInv_update_average_cost
  intro l hl
  cases saleId <;>
    · simp only [apply_ite PState.cost_layers] at hl
      split_ifs at hl <;>
        first
          | exact hs l hl
          | (simp only [List.mem_append, List.mem_singleton] at hl
             rcases hl with h | rfl
             · exact hs l h
             · exact hq)

theorem allocate_item_state_avgInv (totalProductCost totalLogistics : ℚ)
    (it : PurchaseItem) (s : PState) (cl : CostLayer) (hs : layersNonneg s)
    (hfind : s.cost_layers.find? (fun l => l.purchase_item = some it.id) = some cl)
    (hnotyet : cl.logistics_allocated = false) :
    avgInv (allocate_item_state totalProductCost totalLogistics it s) := by
  have hclmem : cl ∈ s.cost_layers := List.mem_of_find?_eq_some hfind
  unfold allocate_item_state
  rw [hfind]
  simp only [hnotyet, Bool.false_eq_true, if_false]
  apply avgInv_update_average_cost
  intro l hl
  simp only [List.mem_map] at hl
  rcases hl with ⟨x, hx, rfl⟩
  split
  · have : (allocate_layer totalProductCost totalLogistics it cl).quantity_remaining =
        cl.quantity_remaining := by
      unfold allocate_layer
      split <;> rfl
    rw [this]
    exact hs cl hclmem
  · exact hs x hx

/-- Counterexample for claim C3: a product with two layers of 5 units at
USD costs 10 and 20 and consistent `average_cost = 15` sells 5 units (with
a pre-set unit cost of 1 GTQ); the sale consumes the oldest layer but the
code never recomputes `average_cost`, so afterwards
`average_cost × Σ quantity_remaining = 15 × 5 = 75` while
`Σ (quantity_remaining × unit_cost) = 5 × 20 = 100`. -/
theorem avg_cost_invariant_counterexample :
    avgInv ⟨10, 15, 0, [⟨some 1, 10, 10, 10, 0, true, 5, 5⟩,
                        ⟨some 2, 20, 20, 20, 0, true, 5, 5⟩], []⟩ ∧
    sale_item_create ⟨10, 15, 0, [⟨some 1, 10, 10, 10, 0, true, 5, 5⟩,
                                  ⟨some 2, 20, 20, 20, 0, true, 5, 5⟩], []⟩
        (31/4) 1 5 1 =
      .ok (⟨5, 15, 0, [⟨some 1, 10, 10, 10, 0, true, 0, 5⟩,
                       ⟨some 2, 20, 20, 20, 0, true, 5, 5⟩],
            [⟨TxnType.sale, -5, 5, some 1⟩]⟩, 1) ∧
    ¬ avgInv ⟨5, 15, 0, [⟨some 1, 10, 10, 10, 0, true, 0, 5⟩,
                         ⟨some 2, 20, 20, 20, 0, true, 5, 5⟩],
              [⟨TxnType.sale, -5, 5, some 1⟩]⟩ := by
  refine ⟨?_, ?_, ?_⟩
  · norm_num [avgInv, layersQty, layersValue]
  · rw [sale_item_create_accept (by norm_num)]
    norm_num [calculate_fifo_cost, consumeLayers]
  · norm_num [avgInv, layersQty, layersValue]

/-- Claim C3 as amended: the average-cost equation
`average_cost × Σ quantity_remaining = Σ (quantity_remaining × unit_cost)`
(USD unit costs) holds exactly after each mutation that the code follows
with `update_average_cost` — layer creation at purchase receipt, a layer's
logistics allocation, layer deletion at purchase reversal, layer
restoration at sale-line deletion — and `average_cost` is zero whenever no
remaining quantity exists; FIFO consumption by a sale-line creation does
not recompute `average_cost` (see the counterexample). -/
theorem avg_cost_invariant_after_recompute :
    (∀ (rate : ℚ) (purchaseId : Nat) (items : List PurchaseItem) (s : PState),
        layersNonneg s → (∀ it ∈ items, 0 ≤ it.quantity) → items ≠ [] →
        avgInv (purchase_receive rate purchaseId items s)) ∧
    (∀ (totalProductCost totalLogistics : ℚ) (it : PurchaseItem) (s : PState)
        (cl : CostLayer), layersNonneg s →
        s.cost_layers.find? (fun l => l.purchase_item = some it.id) = some cl →
        cl.logistics_allocated = false →
        avgInv (allocate_item_state totalProductCost totalLogistics it s)) ∧
    (∀ (purchaseId : Nat) (items : List PurchaseItem) (s : PState),
        layersNonneg s → items ≠ [] →
        avgInv (purchase_delete_core purchaseId items s)) ∧
    (∀ (s : PState) (rate : ℚ) (saleId : Option Nat) (quantity unit_cost : ℚ),
        layersNonneg s → 0 ≤ quantity →
        avgInv (sale_item_delete s rate saleId quantity unit_cost)) ∧
    (∀ s : PState, layersQty s.cost_layers ≤ 0 →
        (update_average_cost s).average_cost = 0) := by
  refine ⟨purchase_receive_avgInv, allocate_item_state_avgInv, ?_, ?_, ?_⟩
  · exact purchase_delete_core_avgInv
  · intro s rate saleId quantity unit_cost hs hq
    exact sale_item_delete_avgInv s rate saleId quantity unit_cost hs hq
  · intro s h
    unfold update_average_cost
    rw [if_neg (by linarith)]

/-- Concrete witness for C3's amended claim: each recomputing mutation run
on a small concrete state re-establishes the invariant, and the zero-stock
average is zero. -/
theorem avg_cost_invariant_after_recompute_witness :
    avgInv (purchase_receive (31/4) 1 [⟨1, 10, 4, 0⟩] ⟨0, 0, 0, [], []⟩) ∧
    avgInv (allocate_item_state 40 40 ⟨1, 1, 40, 0⟩
      ⟨1, 0, 0, [⟨some 1, 40, 310, 40, 0, false, 1, 1⟩], []⟩) ∧
    avgInv (purchase_delete_core 1 [⟨1, 10, 4, 0⟩]
      ⟨10, 4, 4, [⟨some 1, 4, 31, 4, 0, false, 10, 10⟩], []⟩) ∧
    avgInv (sale_item_delete ⟨0, 0, 0, [], []⟩ (31/4) (some 1) 4 31) ∧
    (update_average_cost ⟨0, 15, 0, [], []⟩).average_cost = 0 := by
  refine ⟨?_, ?_, ?_, ?_, ?_⟩
  · exact avg_cost_invariant_after_recompute.1 (31/4) 1 [⟨1, 10, 4, 0⟩]
      ⟨0, 0, 0, [], []⟩ (by intro l hl; simp at hl)
      (by intro it hit; simp at hit; rw [hit]; norm_num) (by simp)
  · exact avg_cost_invariant_after_recompute.2.1 40 40 ⟨1, 1, 40, 0⟩
      ⟨1, 0, 0, [⟨some 1, 40, 310, 40, 0, false, 1, 1⟩], []⟩
      ⟨some 1, 40, 310, 40, 0, false, 1, 1⟩
      (by intro l hl; simp at hl; rw [hl]; norm_num)
      (by simp [List.find?]) rfl
  · exact avg_cost_invariant_after_recompute.2.2.1 1 [⟨1, 10, 4, 0⟩]
      ⟨10, 4, 4, [⟨some 1, 4, 31, 4, 0, false, 10, 10⟩], []⟩
      (by intro l hl; simp at hl; rw [hl]; norm_num) (by simp)
  · exact avg_cost_invariant_after_recompute.2.2.2.1 ⟨0, 0, 0, [], []⟩ (31/4)
      (some 1) 4 31 (by intro l hl; simp at hl) (by norm_num)
  · exact avg_cost_invariant_after_recompute.2.2.2.2 ⟨0, 15, 0, [], []⟩
      (by norm_num [layersQty])

theorem allocate_layer_allocated (t tl : ℚ) (it : PurchaseItem) (cl : CostLayer) :
    (allocate_layer t tl it cl).logistics_allocated = true := by
  unfold allocate_layer
  split
  · assumption
  · rfl

theorem allocate_layer_idem (t tl : ℚ) (it : PurchaseItem) (cl : CostLayer) :
    allocate_layer t tl it (allocate_layer t tl it cl) = allocate_layer t tl it cl := by
  by_cases hcl : cl.logistics_allocated
  · simp [allocate_layer, hcl]
  · simp [allocate_layer, hcl]

theorem allocate_fst_preserved
    (pairs : List (PurchaseItem × Option CostLayer)) (tpc tl : ℚ) :
    ((pairs.map (fun pr =>
        (pr.1, pr.2.map (allocate_layer tpc tl pr.1)))).map Prod.fst) =
      pairs.map Prod.fst := by
  simp [List.map_map, Function.comp]

/-- Claim C5 (confirmed): running `allocate_logistics_costs` twice leaves
every line's cost layer in the same state after the second call as after
the first — already-allocated layers are skipped, so re-running never
double-allocates. -/
theorem allocate_logistics_idempotent (real_shipping real_taxes : Option ℚ)
    (pairs : List (PurchaseItem × Option CostLayer)) :
    allocate_logistics_costs real_shipping real_taxes
        (allocate_logistics_costs real_shipping real_taxes pairs) =
      allocate_logistics_costs real_shipping real_taxes pairs := by
  cases real_shipping with
  | none => rfl
  | some sh =>
    cases real_taxes with
    | none => rfl
    | some tx =>
      simp only [allocate_logistics_costs]
      by_cases h0 : sh + tx = 0
      · simp [h0]
      · simp only [if_neg h0]
        by_cases hp : product_cost (pairs.map Prod.fst) = 0
        · simp [hp]
        · simp only [if_neg hp]
          rw [allocate_fst_preserved pairs _ _, if_neg hp]
          rw [List.map_map]
          apply List.map_congr_left
          intro pr _
          simp only [Function.comp]
          cases pr with
          | mk it cl? =>
            simp only
            rw [Option.map_map]
            cases cl? with
            | none => rfl
            | some cl =>
              simp [Function.comp, allocate_layer_idem]

/-- Concrete witness for C5: a one-line purchase with a fresh layer,
allocated twice, ends in the same layer state as after one allocation. -/
theorem allocate_logistics_idempotent_witness :
    allocate_logistics_costs (some 30) (some 10)
        (allocate_logistics_costs (some 30) (some 10)
          [(⟨1, 1, 100, 0⟩, some ⟨some 1, 100, 775, 100, 0, false, 1, 1⟩)]) =
      allocate_logistics_costs (some 30) (some 10)
        [(⟨1, 1, 100, 0⟩, some ⟨some 1, 100, 775, 100, 0, false, 1, 1⟩)] :=
  allocate_logistics_idempotent (some 30) (some 10)
    [(⟨1, 1, 100, 0⟩, some ⟨some 1, 100, 775, 100, 0, false, 1, 1⟩)]

/-- Counterexample for claim C4: one purchase line of 1 unit at $100 with a
$50 discount and $40 of real logistics.  The claim's formula (denominator
`Σ quantity × unit_cost = 100`) predicts a per-unit allocation of $40, but
the code divides by `Purchase.product_cost = Σ (quantity × unit_cost −
discount) = 50` and allocates $80 per unit. -/
theorem logistics_allocation_counterexample :
    allocate_logistics_costs (some 30) (some 10)
        [(⟨1, 1, 100, 50⟩, some ⟨some 1, 100, 775, 100, 0, false, 1, 1⟩)] =
      [(⟨1, 1, 100, 50⟩, some ⟨some 1, 180, 775, 100, 80, true, 1, 1⟩)] ∧
    ¬ allocate_logistics_costs (some 30) (some 10)
        [(⟨1, 1, 100, 50⟩, some ⟨some 1, 100, 775, 100, 0, false, 1, 1⟩)] =
      [(⟨1, 1, 100, 50⟩, some ⟨some 1,
          100 + ((1 * 100) / (1 * 100) * (30 + 10)) / 1, 775, 100,
          ((1 * 100) / (1 * 100) * (30 + 10)) / 1, true, 1, 1⟩)] := by
  constructor
  · norm_num [allocate_logistics_costs, product_cost, total_price, allocate_layer]
  · norm_num [allocate_logistics_costs, product_cost, total_price, allocate_layer]

/-- Claim C4 as amended: the denominator is the purchase's `product_cost`,
`Σ (quantity × unit_cost − discount)`, while each line's numerator is its
undiscounted `quantity × unit_cost`; each line with an existing
not-yet-allocated layer gets
`allocated_logistics_per_unit = ((q × uc) / product_cost × (shipping + taxes)) / q`,
`unit_cost = base_unit_cost + perUnit` and `logistics_allocated = true`;
with zero discounts the claim's $100/$300 example allocates $1 and $3 per
unit ($10 and $30 in total). -/
theorem logistics_allocation_amended :
    (∀ (sh tx : ℚ) (pairs : List (PurchaseItem × Option CostLayer))
        (i : Nat) (it : PurchaseItem) (cl : CostLayer),
        sh + tx ≠ 0 →
        product_cost (pairs.map Prod.fst) ≠ 0 →
        pairs[i]? = some (it, some cl) →
        cl.logistics_allocated = false →
        (allocate_logistics_costs (some sh) (some tx) pairs)[i]? =
          some (it, some
            { cl with
              allocated_logistics_per_unit :=
                ((it.quantity * it.unit_cost) / product_cost (pairs.map Prod.fst)
                  * (sh + tx)) / it.quantity,
              unit_cost := cl.base_unit_cost +
                ((it.quantity * it.unit_cost) / product_cost (pairs.map Prod.fst)
                  * (sh + tx)) / it.quantity,
              logistics_allocated := true })) ∧
    allocate_logistics_costs (some 30) (some 10)
        [(⟨1, 10, 10, 0⟩, some ⟨some 1, 10, 775/10, 10, 0, false, 10, 10⟩),
         (⟨2, 10, 30, 0⟩, some ⟨some 2, 30, 2325/10, 30, 0, false, 10, 10⟩)] =
      [(⟨1, 10, 10, 0⟩, some ⟨some 1, 11, 775/10, 10, 1, true, 10, 10⟩),
       (⟨2, 10, 30, 0⟩, some ⟨some 2, 33, 2325/10, 30, 3, true, 10, 10⟩)] := by
  constructor
  · intro sh tx pairs i it cl h0 hp hget hnot
    simp only [allocate_logistics_costs, if_neg h0, if_neg hp]
    rw [List.getElem?_map, hget]
    simp [allocate_layer, hnot]
  · norm_num [allocate_logistics_costs, product_cost, total_price, allocate_layer]

/-- Concrete witness for C4's amended claim: the first line of the
$100/$300 example receives $1 of logistics per unit. -/
theorem logistics_allocation_amended_witness :
    (allocate_logistics_costs (some 30) (some 10)
        [(⟨1, 10, 10, 0⟩, some ⟨some 1, 10, 775/10, 10, 0, false, 10, 10⟩),
         (⟨2, 10, 30, 0⟩, some ⟨some 2, 30, 2325/10, 30, 0, false, 10, 10⟩)])[0]? =
      some (⟨1, 10, 10, 0⟩, some ⟨some 1, 11, 775/10, 10, 1, true, 10, 10⟩) := by
  have h := logistics_allocation_amended.1 30 10
    [(⟨1, 10, 10, 0⟩, some ⟨some 1, 10, 775/10, 10, 0, false, 10, 10⟩),
     (⟨2, 10, 30, 0⟩, some ⟨some 2, 30, 2325/10, 30, 0, false, 10, 10⟩)]
    0 ⟨1, 10, 10, 0⟩ ⟨some 1, 10, 775/10, 10, 0, false, 10, 10⟩
    (by norm_num) (by norm_num [product_cost, total_price]) rfl rfl
  rw [h]
  norm_num [product_cost, total_price]

/-- Claim C6 (code bug): `unit_cost_gtq` is snapshotted only at layer
creation; `allocate_logistics_costs` updates the USD `unit_cost` to
`base + perUnit` but never rewrites `unit_cost_gtq`, so after allocation
the GTQ snapshot no longer reflects the layer's USD unit cost at any rate
in effect.  Receiving 1 unit at $100 with rate 7.75 snapshots 775 GTQ;
allocating $40 of logistics raises `unit_cost` to $140, yet
`unit_cost_gtq` stays 775 ≠ 140 × 7.75. -/
theorem unit_cost_gtq_stale_after_allocation :
    receiveLayer (31/4) ⟨1, 1, 100, 0⟩ = ⟨some 1, 100, 775, 100, 0, false, 1, 1⟩ ∧
    allocate_logistics_costs (some 30) (some 10)
        [(⟨1, 1, 100, 0⟩, some (receiveLayer (31/4) ⟨1, 1, 100, 0⟩))] =
      [(⟨1, 1, 100, 0⟩, some ⟨some 1, 140, 775, 100, 40, true, 1, 1⟩)] ∧
    (775 : ℚ) ≠ 140 * (31/4) := by
  refine ⟨?_, ?_, by norm_num⟩
  · norm_num [receiveLayer]
  · norm_num [allocate_logistics_costs, receiveLayer, product_cost, total_price,
      allocate_layer]

/-- Claim C7 (confirmed): a new sale line whose requested quantity exceeds
the product's current stock is rejected with an insufficient-stock error
carrying the available and requested quantities, and the rolled-back
attempt leaves the whole product state — stock, every layer, the ledger —
unchanged. -/
theorem insufficient_stock_rejection (s : PState) (rate : ℚ) (saleId : Nat)
    (quantity preset_cost : ℚ) (h : s.current_stock < quantity) :
    sale_item_create s rate saleId quantity preset_cost =
      .error ⟨s.current_stock, quantity⟩ ∧
    applyOp s (.saleCreate saleId rate quantity preset_cost) = s := by
  refine ⟨sale_item_create_reject h, ?_⟩
  simp only [applyOp, sale_item_create_reject h]

/-- Concrete witness for C7: stock 2, requested 5 — rejected with
available 2 / requested 5, state unchanged. -/
theorem insufficient_stock_rejection_witness :
    sale_item_create ⟨2, 0, 0, [], []⟩ (31/4) 1 5 0 = .error ⟨2, 5⟩ ∧
    applyOp ⟨2, 0, 0, [], []⟩ (.saleCreate 1 (31/4) 5 0) = ⟨2, 0, 0, [], []⟩ :=
  insufficient_stock_rejection ⟨2, 0, 0, [], []⟩ (31/4) 1 5 0 (by norm_num)

/-- Claim C10 (confirmed): a new sale line with a pre-set positive
`unit_cost` keeps that cost (the FIFO costing hook returns early), yet the
commit still consumes the product's layers oldest-first by the full sale
quantity and decrements stock by that quantity. -/
theorem preset_cost_still_consumes_layers (s : PState) (rate : ℚ) (saleId : Nat)
    (quantity preset_cost : ℚ) (hpre : 0 < preset_cost)
    (hstock : ¬ s.current_stock < quantity) :
    sale_item_create s rate saleId quantity preset_cost =
      .ok ({ s with
              cost_layers := consumeLayers s.cost_layers quantity,
              current_stock := s.current_stock - quantity,
              ledger := s.ledger ++
                [⟨TxnType.sale, -quantity, s.current_stock - quantity, some saleId⟩] },
            preset_cost) := by
  rw [sale_item_create_accept hstock]
  simp [calculate_fifo_cost, hpre]

/-- Concrete witness for C10: two layers of 5 units, pre-set cost 9,
selling 7 keeps cost 9 but still leaves the layers at 0 and 3 and stock
at 3. -/
theorem preset_cost_still_consumes_layers_witness :
    sale_item_create ⟨10, 0, 0, [⟨some 1, 10, 10, 10, 0, false, 5, 5⟩,
                                 ⟨some 2, 12, 12, 12, 0, false, 5, 5⟩], []⟩
        (31/4) 1 7 9 =
      .ok (⟨3, 0, 0, [⟨some 1, 10, 10, 10, 0, false, 0, 5⟩,
                      ⟨some 2, 12, 12, 12, 0, false, 3, 5⟩],
            [⟨TxnType.sale, -7, 3, some 1⟩]⟩, 9) := by
  have h := preset_cost_still_consumes_layers
    ⟨10, 0, 0, [⟨some 1, 10, 10, 10, 0, false, 5, 5⟩,
                ⟨some 2, 12, 12, 12, 0, false, 5, 5⟩], []⟩
    (31/4) 1 7 9 (by norm_num) (by norm_num)
  rw [h]
  norm_num [consumeLayers]

theorem ledger_append_fold_stock (purchaseId : Nat) (st : PState)
    (its : List PurchaseItem) :
    (its.foldl
      (fun st it =>
        { st with ledger := st.ledger ++
            [⟨TxnType.adjustment, -it.quantity, st.current_stock, some purchaseId⟩] })
      st).current_stock = st.current_stock := by
  induction its generalizing st with
  | nil => rfl
  | cons a its ih => simp only [List.foldl_cons]; rw [ih]

theorem ledger_append_fold_layers (purchaseId : Nat) (st : PState)
    (its : List PurchaseItem) :
    (its.foldl
      (fun st it =>
        { st with ledger := st.ledger ++
            [⟨TxnType.adjustment, -it.quantity, st.current_stock, some purchaseId⟩] })
      st).cost_layers = st.cost_layers := by
  induction its generalizing st with
  | nil => rfl
  | cons a its ih => simp only [List.foldl_cons]; rw [ih]

theorem purchase_delete_core_stock (purchaseId : Nat) (items : List PurchaseItem)
    (s : PState) :
    (purchase_delete_core purchaseId items s).current_stock =
      (items.foldl delete_item_reversal s).current_stock := by
  unfold purchase_delete_core
  rw [ledger_append_fold_stock]

theorem purchase_delete_core_layers (purchaseId : Nat) (items : List PurchaseItem)
    (s : PState) :
    (purchase_delete_core purchaseId items s).cost_layers =
      (items.foldl delete_item_reversal s).cost_layers := by
  unfold purchase_delete_core
  rw [ledger_append_fold_layers]

/-- Claim C8 (confirmed): receiving a not-yet-received purchase and then
deleting it, with no intervening operations, restores the product's stock
to its pre-receipt value and leaves no cost layer originating from any of
the purchase's lines (layers are deleted regardless of remaining
quantity); and each per-line reversal subtraction is clamped, so it can
never drive stock negative. -/
theorem purchase_receive_then_delete (p : Purchase) (s : PState) (rate : ℚ)
    (hstatus : ¬ p.status = PStatus.received) (hstock : 0 ≤ s.current_stock)
    (hq : ∀ it ∈ p.items, 0 ≤ it.quantity) :
    (purchase_delete_op (purchase_receive_op rate p s).1
        (purchase_receive_op rate p s).2).current_stock = s.current_stock ∧
    (∀ l ∈ (purchase_delete_op (purchase_receive_op rate p s).1
        (purchase_receive_op rate p s).2).cost_layers,
      ∀ it ∈ p.items, ¬ l.purchase_item = some it.id) ∧
    (∀ (st : PState) (it : PurchaseItem),
      0 ≤ (delete_item_reversal st it).current_stock) := by
  have hrec : purchase_receive_op rate p s =
      ({ p with status := PStatus.received }, purchase_receive rate p.id p.items s) := by
    unfold purchase_receive_op
    rw [if_neg hstatus]
  have hdel : purchase_delete_op (purchase_receive_op rate p s).1
      (purchase_receive_op rate p s).2 =
      purchase_delete_core p.id p.items (purchase_receive rate p.id p.items s) := by
    rw [hrec]
    unfold purchase_delete_op
    rw [if_pos rfl]
  refine ⟨?_, ?_, delete_item_reversal_stock_nonneg⟩
  · rw [hdel, purchase_delete_core_stock]
    have hs' : (purchase_receive rate p.id p.items s).current_stock =
        s.current_stock + totalQty p.items := purchase_receive_stock _ _ _ _
    rw [delete_fold_stock_exact p.items _ hq
      (by rw [hs']; have := totalQty_nonneg hq; linarith), hs']
    ring
  · intro l hl it hit
    rw [hdel, purchase_delete_core_layers] at hl
    exact (delete_fold_layers_clean p.items _ l hl).2 it hit

/-- Concrete witness for C8: a pending one-line purchase of 10 units is
received into an empty product and then deleted; stock returns to 0, no
layer from the purchase survives, and reversal subtraction is clamped. -/
theorem purchase_receive_then_delete_witness :
    (purchase_delete_op
        (purchase_receive_op (31/4) ⟨1, PStatus.pending, none, none, [⟨1, 10, 4, 0⟩]⟩
          ⟨0, 0, 0, [], []⟩).1
        (purchase_receive_op (31/4) ⟨1, PStatus.pending, none, none, [⟨1, 10, 4, 0⟩]⟩
          ⟨0, 0, 0, [], []⟩).2).current_stock = (0:ℚ) ∧
    (∀ l ∈ (purchase_delete_op
        (purchase_receive_op (31/4) ⟨1, PStatus.pending, none, none, [⟨1, 10, 4, 0⟩]⟩
          ⟨0, 0, 0, [], []⟩).1
        (purchase_receive_op (31/4) ⟨1, PStatus.pending, none, none, [⟨1, 10, 4, 0⟩]⟩
          ⟨0, 0, 0, [], []⟩).2).cost_layers,
      ∀ it ∈ ([⟨1, 10, 4, 0⟩] : List PurchaseItem), ¬ l.purchase_item = some it.id) ∧
    (∀ (st : PState) (it : PurchaseItem),
      0 ≤ (delete_item_reversal st it).current_stock) := by
  have h := purchase_receive_then_delete
    ⟨1, PStatus.pending, none, none, [⟨1, 10, 4, 0⟩]⟩ ⟨0, 0, 0, [], []⟩ (31/4)
    (by simp) (by norm_num)
    (by intro it hit; simp only [List.mem_singleton] at hit; rw [hit]; norm_num)
  exact h

end FitStore
